import Mathlib

/-!
# Verification of the findr-ai resume-analysis backend

A shallow embedding, in Lean 4, of the pure logic of the `vultr-backend`
service: the percentage-score parser, the repository ownership
reconciliation, the Gitingest content extractor's result construction,
the Firecrawl polling loop, and the FastAPI orchestration workflow with
its in-memory job map.  Python strings are modelled as `List Char`,
Python floats as `ℚ` (decimal literals are exact rationals; binary
rounding of CPython floats is not modelled), and wall-clock time
(`datetime.now`, `time.sleep`) is not modelled.  External effects (LLM
crews, HTTP calls, gitingest) enter as explicit inputs.
-/

namespace Findr

/-! ## Python string primitives

`splitOnChar` mirrors Python `str.split(sep)` for a one-character
separator: every occurrence splits, empty fields are kept, and the
empty string yields `[""]`.  `removeAll` mirrors Python
`str.replace(pat, '')`: left-to-right removal of non-overlapping
occurrences. -/

def splitOnChar (sep : Char) : List Char → List (List Char)
  | [] => [[]]
  | c :: rest =>
    if c = sep then
      [] :: splitOnChar sep rest
    else
      match splitOnChar sep rest with
      | [] => [[c]]
      | g :: gs => (c :: g) :: gs

def removeAllFuel (pat : List Char) : Nat → List Char → List Char
  | 0, s => s
  | _ + 1, [] => []
  | fuel + 1, c :: rest =>
    if pat ≠ [] ∧ pat.isPrefixOf (c :: rest) then
      removeAllFuel pat fuel ((c :: rest).drop pat.length)
    else
      c :: removeAllFuel pat fuel rest

/-- Python `s.replace(pat, '')`: left-to-right removal of non-overlapping
occurrences of `pat`.  Each step consumes at least one character, so
`s.length` steps of fuel always suffice. -/
def removeAll (pat s : List Char) : List Char :=
  removeAllFuel pat s.length s

example : splitOnChar '/' ("a//b".data) = ["a".data, [], "b".data] := by decide
example : splitOnChar '/' [] = [[]] := by decide
example : removeAll ("ab".data) ("xababy".data) = "xy".data := by decide

/-! ## MatchingScore parsing (C4)

`main.py` / `pdf_multi_crew_resume_analyzer.py`:
```
score_match = re.search(r'(\d+(?:\.\d+)?)%', job_matching_result)
matching_score = float(score_match.group(1)) if score_match else 0
```
`pctAt` decides whether the pattern matches at the head of the list and
returns the captured integer and fractional digit groups; greedy `\d+`
with the subsequent `(?:\.\d+)?%` admits no backtracking that a shorter
digit run could save, so taking the maximal digit run is exact.
`findPct` is `re.search`'s leftmost scan.  `\d` is modelled over ASCII
digits. -/

def isDigitC (c : Char) : Bool := c.isDigit

def pctAt (s : List Char) : Option (List Char × List Char) :=
  let ds := s.takeWhile isDigitC
  if ds.isEmpty then none
  else
    match s.dropWhile isDigitC with
    | '%' :: _ => some (ds, [])
    | '.' :: r2 =>
      let fs := r2.takeWhile isDigitC
      if fs.isEmpty then none
      else
        match r2.dropWhile isDigitC with
        | '%' :: _ => some (ds, fs)
        | _ => none
    | _ => none

def findPct : List Char → Option (List Char × List Char)
  | [] => none
  | c :: rest =>
    match pctAt (c :: rest) with
    | some g => some g
    | none => findPct rest

def natOfDigits (l : List Char) : Nat :=
  l.foldl (fun a c => 10 * a + (c.toNat - 48)) 0

def groupVal (g : List Char × List Char) : ℚ :=
  (natOfDigits g.1 : ℚ) + (natOfDigits g.2 : ℚ) / (10 ^ g.2.length)

def matchingScore (s : List Char) : ℚ :=
  match findPct s with
  | some g => groupVal g
  | none => 0

example : findPct ("Overall match: 87.5% fit".data) = some ("87".data, "5".data) := by decide
example : findPct ("no score given".data) = none := by decide
example : findPct ("12.34.5%".data) = some ("34".data, "5".data) := by decide
example : findPct ("1.%".data) = none := by decide
example : matchingScore ("Overall match: 87.5% fit".data) = 875 / 10 := by
  have h : findPct ("Overall match: 87.5% fit".data) = some ("87".data, "5".data) := by decide
  have h87 : natOfDigits ("87".data) = 87 := by decide
  have h5 : natOfDigits ("5".data) = 5 := by decide
  simp only [matchingScore, h, groupVal, h87, h5]
  norm_num

/-- Spec-side shape of the captured group: a nonempty run of digits,
optionally followed by a decimal point and a nonempty run of digits. -/
def PctToken (g : List Char) : Prop :=
  (g ≠ [] ∧ ∀ c ∈ g, isDigitC c = true) ∨
  (∃ ds fs, g = ds ++ '.' :: fs ∧ ds ≠ [] ∧ fs ≠ [] ∧
    (∀ c ∈ ds, isDigitC c = true) ∧ (∀ c ∈ fs, isDigitC c = true))

/-- Spec-side statement that some substring of `s` matches the
percentage pattern `\d+(\.\d+)?%`. -/
def HasPct (s : List Char) : Prop :=
  ∃ a g b, s = a ++ g ++ '%' :: b ∧ PctToken g

theorem takeWhile_all_stop {p : Char → Bool} {l1 : List Char} {x : Char} (l2 : List Char)
    (h1 : ∀ c ∈ l1, p c = true) (hx : p x = false) :
    (l1 ++ x :: l2).takeWhile p = l1 ∧ (l1 ++ x :: l2).dropWhile p = x :: l2 := by
  induction l1 with
  | nil => simp [List.takeWhile, List.dropWhile, hx]
  | cons c cs ih =>
    have hc : p c = true := h1 c (by simp)
    have hrest := ih (fun d hd => h1 d (by simp [hd]))
    simp [List.takeWhile, List.dropWhile, hc, hrest.1, hrest.2]

theorem mem_takeWhile_pred {p : Char → Bool} :
    ∀ {l : List Char} {x : Char}, x ∈ l.takeWhile p → p x = true := by
  intro l
  induction l with
  | nil => intro x hx; simp [List.takeWhile] at hx
  | cons c cs ih =>
    intro x hx
    rw [List.takeWhile] at hx
    rcases hpc : p c with _ | _
    · simp [hpc] at hx
    · simp [hpc] at hx
      rcases hx with rfl | hx
      · exact hpc
      · exact ih hx

theorem pctAt_nil : pctAt [] = none := rfl

theorem pctAt_isSome_of_token {g : List Char} (b : List Char) (h : PctToken g) :
    (pctAt (g ++ '%' :: b)).isSome = true := by
  have hpct : isDigitC '%' = false := by decide
  have hdot : isDigitC '.' = false := by decide
  rcases h with ⟨hne, hdig⟩ | ⟨ds, fs, rfl, hds, hfs, hdsd, hfsd⟩
  · obtain ⟨ht, hd⟩ := takeWhile_all_stop (p := isDigitC) b hdig hpct
    simp [pctAt, ht, hd, List.isEmpty_iff, hne]
  · have hsplit : ds ++ '.' :: fs ++ '%' :: b = ds ++ '.' :: (fs ++ '%' :: b) := by
      simp
    obtain ⟨ht, hd⟩ := takeWhile_all_stop (x := '.') (fs ++ '%' :: b) hdsd hdot
    obtain ⟨ht2, hd2⟩ := takeWhile_all_stop (x := '%') b hfsd hpct
    rw [hsplit]
    simp [pctAt, ht, hd, ht2, hd2, List.isEmpty_iff, hds, hfs]

theorem findPct_isSome_append {s : List Char} (a : List Char)
    (h : (pctAt s).isSome = true) : (findPct (a ++ s)).isSome = true := by
  induction a with
  | nil =>
    cases s with
    | nil => rw [pctAt_nil] at h; simp at h
    | cons c r =>
      simp only [List.nil_append, findPct]
      rcases hp : pctAt (c :: r) with _ | g
      · rw [hp] at h; simp at h
      · simp
  | cons x a' ih =>
    simp only [List.cons_append, findPct]
    rcases hp : pctAt (x :: (a' ++ s)) with _ | g
    · exact ih
    · simp

theorem findPct_some_least {s : List Char} {g : List Char × List Char}
    (h : findPct s = some g) :
    ∃ n, pctAt (s.drop n) = some g ∧ ∀ m, m < n → pctAt (s.drop m) = none := by
  induction s with
  | nil => simp [findPct] at h
  | cons c r ih =>
    rw [findPct] at h
    rcases hp : pctAt (c :: r) with _ | g'
    · rw [hp] at h
      obtain ⟨n, hn, hmin⟩ := ih h
      refine ⟨n + 1, by simpa using hn, ?_⟩
      intro m hm
      cases m with
      | zero => simpa using hp
      | succ k => exact (by simpa using hmin k (by omega))
    · rw [hp] at h
      refine ⟨0, ?_, ?_⟩
      · simpa [hp] using h
      · intro m hm; omega

/-- Every successful head-match of the pattern decomposes the input as
token, `'%'`, remainder, with the token of the spec-side shape. -/
theorem pctAt_some_decomp {s : List Char} {ds fs : List Char}
    (h : pctAt s = some (ds, fs)) :
    ∃ tok b, s = tok ++ '%' :: b ∧ PctToken tok ∧
      tok = ds ++ (if fs.isEmpty then [] else '.' :: fs) := by
  have hsplit := List.takeWhile_append_dropWhile (p := isDigitC) (l := s)
  rw [pctAt] at h
  rcases hne : (s.takeWhile isDigitC).isEmpty with _ | _
  · rcases hdw : s.dropWhile isDigitC with _ | ⟨c, r⟩
    · simp [hne, hdw] at h
    · by_cases hc : c = '%'
      · subst hc
        simp only [hne, hdw, Bool.false_eq_true, if_false] at h
        rcases h with ⟨rfl, rfl⟩
        refine ⟨s.takeWhile isDigitC, r, ?_, ?_, by simp⟩
        · rw [← hdw]; exact hsplit.symm
        · refine Or.inl ⟨?_, fun x hx => mem_takeWhile_pred hx⟩
          simpa [List.isEmpty_iff] using hne
      · by_cases hdot : c = '.'
        · subst hdot
          simp only [hne, hdw, Bool.false_eq_true, if_false] at h
          rcases hne2 : (r.takeWhile isDigitC).isEmpty with _ | _
          · rcases hdw2 : r.dropWhile isDigitC with _ | ⟨c2, r2⟩
            · simp [hne2, hdw2] at h
            · by_cases hc2 : c2 = '%'
              · subst hc2
                simp only [hne2, hdw2, Bool.false_eq_true, if_false] at h
                rcases h with ⟨rfl, rfl⟩
                have hsplit2 := List.takeWhile_append_dropWhile (p := isDigitC) (l := r)
                refine ⟨s.takeWhile isDigitC ++ '.' :: r.takeWhile isDigitC, r2, ?_, ?_,
                  by simp [hne2]⟩
                · calc s = s.takeWhile isDigitC ++ s.dropWhile isDigitC := hsplit.symm
                    _ = s.takeWhile isDigitC ++ '.' :: r := by rw [hdw]
                    _ = s.takeWhile isDigitC ++
                        '.' :: (r.takeWhile isDigitC ++ r.dropWhile isDigitC) := by
                          rw [hsplit2]
                    _ = (s.takeWhile isDigitC ++ '.' :: r.takeWhile isDigitC) ++ '%' :: r2 := by
                          rw [hdw2]; simp
                · refine Or.inr ⟨s.takeWhile isDigitC, r.takeWhile isDigitC, rfl, ?_, ?_,
                    fun x hx => mem_takeWhile_pred hx, fun x hx => mem_takeWhile_pred hx⟩
                  · simpa [List.isEmpty_iff] using hne
                  · simpa [List.isEmpty_iff] using hne2
              · simp [hne2, hdw2, hc2] at h
          · simp [hne2, hdw] at h
        · simp [hne, hdw, hc, hdot] at h
  · simp [hne] at h

theorem HasPct_of_findPct_some {s : List Char} {g : List Char × List Char}
    (h : findPct s = some g) : HasPct s := by
  obtain ⟨n, hn, -⟩ := findPct_some_least h
  obtain ⟨tok, b, hdec, htok, -⟩ :=
    @pctAt_some_decomp (s.drop n) g.1 g.2 (by simpa using hn)
  refine ⟨s.take n, tok, b, ?_, htok⟩
  calc s = s.take n ++ s.drop n := (List.take_append_drop n s).symm
    _ = s.take n ++ (tok ++ '%' :: b) := by rw [hdec]
    _ = s.take n ++ tok ++ '%' :: b := by simp

theorem findPct_isSome_of_HasPct {s : List Char} (h : HasPct s) :
    (findPct s).isSome = true := by
  obtain ⟨a, g, b, rfl, htok⟩ := h
  have := findPct_isSome_append (s := g ++ '%' :: b) a (pctAt_isSome_of_token b htok)
  simpa using this

/-! ## Ownership reconciliation (C1)

`main.py` lines 191-204 (and the identical loop in
`pdf_multi_crew_resume_analyzer.py` lines 1172-1185):
```
for repo_url in best_project_repos:
    repo_parts = repo_url.replace('https://github.com/', '').split('/')
    if len(repo_parts) >= 2:
        repo_owner = repo_parts[0]
        if repo_owner == username:
            verified_repos.append(repo_url)
        else:
            invalid_repos.append(repo_url)
    else:
        invalid_repos.append(repo_url)
```
Note the use of `str.replace`, which removes every occurrence of the
marker substring, not only a leading one. -/

def ghMarker : List Char := "https://github.com/".data

def repoParts (url : List Char) : List (List Char) :=
  splitOnChar '/' (removeAll ghMarker url)

/-- The verification test the loop applies to one URL. -/
def verifiedByCode (username url : List Char) : Bool :=
  match repoParts url with
  | owner :: _ :: _ => owner = username
  | _ => false

def reconcile (username : List Char) : List (List Char) → List (List Char) × List (List Char)
  | [] => ([], [])
  | url :: rest =>
    let vi := reconcile username rest
    match repoParts url with
    | owner :: _ :: _ =>
      if owner = username then (url :: vi.1, vi.2) else (vi.1, url :: vi.2)
    | _ => (vi.1, url :: vi.2)

/-- The claim's reading of the parse: strip the marker once when it is a
prefix of the URL, then split the remainder on `'/'`.  This definition
follows the claim's words and is compared against `verifiedByCode`. -/
def claimStripParts (url : List Char) : List (List Char) :=
  splitOnChar '/' (if ghMarker.isPrefixOf url then url.drop ghMarker.length else url)

/-- The claim's verification predicate: at least two segments after
stripping the marker prefix, the first of which equals the username. -/
def claimVerified (username url : List Char) : Bool :=
  match claimStripParts url with
  | owner :: _ :: _ => owner = username
  | _ => false

example : reconcile ("alice".data) ["https://github.com/alice/repoA".data] =
    (["https://github.com/alice/repoA".data], []) := by decide
example : reconcile ("alice".data) ["https://github.com/bob/repoB".data] =
    ([], ["https://github.com/bob/repoB".data]) := by decide

/-! ## Gitingest repository content extraction (C3, C6)

`GitHubContentExtractor.extract_repository_content`
(`pdf_multi_crew_resume_analyzer.py` lines 558-611).  The call to
`gitingest.ingest` runs in a worker thread under
`future.result(timeout=120)`; its three possible results reach the
function as a success triple, a `concurrent.futures.TimeoutError`, or
any other exception, which we make an explicit input.  The function
itself then returns totally — never propagating — which the total Lean
function models. -/

def max_content_size : Nat := 3000

def ingestTimeoutSeconds : Nat := 120

inductive IngestOutcome where
  | ok (summary tree content : List Char)
  | timeout
  | exn (msg : List Char)

structure RepoContent where
  url : List Char
  summary : Option (List Char)
  file_tree : Option (List Char)
  content : Option (List Char)
  content_size : Nat
  extraction_status : List Char
  error : Option (List Char)

/-- The truncation marker appended past the cap; the f-string reads
`len(content)` before reassignment, so it names the original size. -/
def truncMark (origSize : Nat) : List Char :=
  ("\n\n[Content truncated - original size: ".data) ++ (Nat.repr origSize).data ++
    (" characters]".data)

def extract_repository_content (repo_url : List Char) (o : IngestOutcome) : RepoContent :=
  match o with
  | .ok summary tree content =>
    let content2 :=
      if content.length > max_content_size then
        content.take max_content_size ++ truncMark content.length
      else content
    { url := repo_url
      summary := some summary
      file_tree := some tree
      content := some content2
      content_size := content2.length
      extraction_status := "success".data
      error := none }
  | .timeout =>
    { url := repo_url
      summary := none
      file_tree := none
      content := none
      content_size := 0
      extraction_status := "failed".data
      error := some ("Extraction timeout after 2 minutes".data) }
  | .exn msg =>
    { url := repo_url
      summary := none
      file_tree := none
      content := none
      content_size := 0
      extraction_status := "failed".data
      error := some msg }

/-! ## Firecrawl polling loop (C9)

`poll_extraction_result` (`pdf_multi_crew_resume_analyzer.py` lines
54-85): a `for attempt in range(max_attempts)` loop over successive
remote responses.  A response is either parsed JSON with `success` and
optional truthy `data`, or one of the two exception classes the code
distinguishes.  `requests.exceptions.Timeout` consumes an attempt and
retries (`continue`); any other exception returns `None`; `success`
without truthy `data` sleeps `interval` seconds and retries; `success`
with data returns it; non-`success` returns `None`.  Wall-clock
sleeping is not modelled. -/

def pollInterval : Nat := 2

def pollMaxAttempts : Nat := 15

inductive PollResponse where
  | success (data : Option (List Char))
  | apiError (msg : List Char)
  | reqTimeout
  | exn (msg : List Char)

/-- A response on which the loop proceeds to the next attempt. -/
def isRetryResp : PollResponse → Bool
  | .success none => true
  | .reqTimeout => true
  | _ => false

/-- A response on which the loop returns `None` at once. -/
def isAbortResp : PollResponse → Bool
  | .apiError _ => true
  | .exn _ => true
  | _ => false

def pollAux (resp : Nat → PollResponse) (attempt : Nat) : Nat → Option (List Char)
  | 0 => none
  | remaining + 1 =>
    match resp attempt with
    | .success (some d) => some d
    | .success none => pollAux resp (attempt + 1) remaining
    | .apiError _ => none
    | .reqTimeout => pollAux resp (attempt + 1) remaining
    | .exn _ => none

def poll_extraction_result (resp : Nat → PollResponse) : Option (List Char) :=
  pollAux resp 0 pollMaxAttempts

theorem pollAux_exhaust (resp : Nat → PollResponse) :
    ∀ k a, (∀ i, i < k → isRetryResp (resp (a + i)) = true) →
      pollAux resp a k = none := by
  intro k
  induction k with
  | zero => intro a _; rfl
  | succ n ih =>
    intro a h
    have h0 : isRetryResp (resp a) = true := by simpa using h 0 (by omega)
    have hrest : ∀ i, i < n → isRetryResp (resp (a + 1 + i)) = true := by
      intro i hi
      have := h (i + 1) (by omega)
      simpa [Nat.add_assoc, Nat.add_comm 1 i] using this
    rw [pollAux]
    rcases hr : resp a with d | m | _ | m
    · rcases d with _ | d
      · exact ih (a + 1) hrest
      · rw [hr] at h0; simp [isRetryResp] at h0
    · rfl
    · exact ih (a + 1) hrest
    · rfl

theorem pollAux_first_hit (resp : Nat → PollResponse) :
    ∀ k a i, i < k → (∀ j, j < i → isRetryResp (resp (a + j)) = true) →
      (∀ d, resp (a + i) = .success (some d) → pollAux resp a k = some d) ∧
      (isAbortResp (resp (a + i)) = true → pollAux resp a k = none) := by
  intro k
  induction k with
  | zero => intro a i hi; omega
  | succ n ih =>
    intro a i hi hj
    cases i with
    | zero =>
      constructor
      · intro d hd
        rw [pollAux]
        simpa using congrArg (fun r =>
          match r with
          | PollResponse.success (some d) => some d
          | PollResponse.success none => pollAux resp (a + 1) n
          | PollResponse.apiError _ => (none : Option (List Char))
          | PollResponse.reqTimeout => pollAux resp (a + 1) n
          | PollResponse.exn _ => none) (by simpa using hd)
      · intro habort
        rw [Nat.add_zero] at habort
        rw [pollAux]
        rcases hr : resp a with d | m | _ | m
        · rw [hr] at habort; simp [isAbortResp] at habort
        · rfl
        · rw [hr] at habort; simp [isAbortResp] at habort
        · rfl
    | succ i2 =>
      have h0 : isRetryResp (resp a) = true := by simpa using hj 0 (by omega)
      have hrest : ∀ j, j < i2 → isRetryResp (resp (a + 1 + j)) = true := by
        intro j hji
        have := hj (j + 1) (by omega)
        simpa [Nat.add_assoc, Nat.add_comm 1 j] using this
      have hx := ih (a + 1) i2 (by omega) hrest
      have hshift : a + 1 + i2 = a + (i2 + 1) := by omega
      rw [hshift] at hx
      rw [pollAux]
      rcases hr : resp a with d | m | _ | m
      · rcases d with _ | d
        · exact hx
        · rw [hr] at h0; simp [isRetryResp] at h0
      · rw [hr] at h0; simp [isRetryResp] at h0
      · exact hx
      · rw [hr] at h0; simp [isRetryResp] at h0

theorem pollAux_depends_on_window (resp resp2 : Nat → PollResponse) :
    ∀ k a, (∀ i, i < k → resp (a + i) = resp2 (a + i)) →
      pollAux resp a k = pollAux resp2 a k := by
  intro k
  induction k with
  | zero => intro a _; rfl
  | succ n ih =>
    intro a h
    have h0 : resp a = resp2 a := by simpa using h 0 (by omega)
    have hrest : ∀ i, i < n → resp (a + 1 + i) = resp2 (a + 1 + i) := by
      intro i hi
      have := h (i + 1) (by omega)
      simpa [Nat.add_assoc, Nat.add_comm 1 i] using this
    rw [pollAux, pollAux, ← h0]
    rcases hr : resp a with d | m | _ | m
    · rcases d with _ | d
      · exact ih (a + 1) hrest
      · rfl
    · rfl
    · exact ih (a + 1) hrest
    · rfl

/-! ## Orchestration workflow (C2, C5, C7, C8, C10)

`main.py` `run_analysis_workflow` plus the endpoint handlers.  External
effects are inputs of `Env`: the PDF extractor never raises (it returns
`""` on failure), the two crew kickoffs may raise, the Firecrawl profile
lookup never raises (all its failures become a `None` payload and then a
non-empty error dict), and gitingest outcomes reach
`extract_repository_content`, which is total.  Timestamps
(`created_at`/`updated_at`, `processing_time_seconds`) are wall-clock
values and are not modelled. -/

inductive JobStatus where
  | pending
  | processing
  | completed
  | failed
deriving DecidableEq

structure Crew1Out where
  pdf_parsing : List Char
  resume_analysis : List Char
  job_matching : List Char
  github_extraction : List Char

structure Crew2Out where
  project_matching : List Char
  authenticity_analysis : List Char
  credibility_scoring : List Char
  verification_report : List Char

/-- Outcome of a call that may raise: the value, or `str(e)` of the
raised exception. -/
inductive ExtRes (α : Type) where
  | ok (val : α)
  | exn (msg : List Char)

/-- `FirecrawlGitHubExtractor.get_profile_activity_data` always returns
one of two non-empty dict literals (`extract_data` converts every
failure into `None` first). -/
inductive ProfileDict where
  | activity (username data : List Char)
  | lookupFailed (username : List Char)

/-- Python truthiness of the profile dict: both dict literals in the
source are non-empty, so the truthiness test is always `true`. -/
def ProfileDict.truthy : ProfileDict → Bool := fun _ => true

def get_profile_activity_data (username : List Char) (extracted : Option (List Char)) :
    ProfileDict :=
  match extracted with
  | some d => .activity username d
  | none => .lookupFailed username

structure Env where
  github_profile_url : List Char
  best_project_repos : List (List Char)
  pdfText : List Char
  crew1 : ExtRes Crew1Out
  profileExtract : Option (List Char)
  repoIngest : List Char → IngestOutcome
  crew2 : ExtRes Crew2Out
  floatRepr : ℚ → List Char

structure ResumeAnalysisOut where
  matching_score : ℚ
  pdf_parsing : List Char
  resume_analysis : List Char
  job_matching : List Char
  github_extraction : List Char

structure VerificationOut where
  specified_repos : Nat
  verified_repos : Nat
  invalid_repos : Nat
  repositories_analyzed : Nat
  repository_content : List RepoContent
  profile_activity : ProfileDict
  project_matching : List Char
  authenticity_analysis : List Char
  credibility_scoring : List Char
  verification_report : List Char

inductive GithubVerification where
  | triggered (v : VerificationOut)
  | skipped (reason : List Char)

structure FinalResults where
  resume_analysis : ResumeAnalysisOut
  github_verification : GithubVerification

structure AnalysisSummary where
  matching_score : ℚ
  github_profile : List Char
  specified_repos : Nat
  verified_repos : Nat
  invalid_repos : Nat
  repositories_analyzed : Nat
  github_verification_triggered : Bool

structure ResultPayload where
  matching_score : ℚ
  github_verification_triggered : Bool
  results : FinalResults
  analysis_summary : AnalysisSummary

structure JobUpdate where
  status : JobStatus
  progress : ℚ
  message : List Char
  results : Option ResultPayload
  error : Option (List Char)

def processingUpd (p : ℚ) (m : List Char) : JobUpdate :=
  ⟨.processing, p, m, none, none⟩

/-- The `except` block of `run_analysis_workflow`: progress resets to 0,
and both message and error are `"Analysis failed: " + str(e)`. -/
def failedUpd (m : List Char) : JobUpdate :=
  ⟨.failed, 0, ("Analysis failed: ".data) ++ m, none, some (("Analysis failed: ".data) ++ m)⟩

def completedUpd (p : ResultPayload) : JobUpdate :=
  ⟨.completed, 1, "Analysis completed successfully".data, some p, none⟩

def updInit : JobUpdate := processingUpd (1/10) ("Initializing processors...".data)
def updExtract : JobUpdate := processingUpd (2/10) ("Extracting text from PDF...".data)
def updVerifyOwn : JobUpdate := processingUpd (3/10) ("Verifying repository ownership...".data)
def updCrew1 : JobUpdate := processingUpd (4/10) ("Running resume analysis crew...".data)
def updGhVerif : JobUpdate := processingUpd (6/10) ("Running GitHub verification...".data)
def updGitingest : JobUpdate := processingUpd (7/10) ("Analyzing repositories with Gitingest...".data)
def updCrew2 : JobUpdate := processingUpd (8/10) ("Running GitHub verification crew...".data)
def updFinalize : JobUpdate := processingUpd (9/10) ("Finalizing results...".data)

inductive RunOutcome where
  | ok (payload : ResultPayload)
  | err (msg : List Char)

structure WorkflowRun where
  updates : List JobUpdate
  outcome : RunOutcome
  crew2Ran : Bool

def pdfFailMsg : List Char := "Failed to extract text from PDF".data

def skipReason (scoreStr : List Char) : List Char :=
  ("Matching score ".data) ++ scoreStr ++ ("% below threshold of 65%".data)

def envUsername (env : Env) : List Char :=
  (splitOnChar '/' env.github_profile_url).getLastD []

def envReconcile (env : Env) : List (List Char) × List (List Char) :=
  reconcile (envUsername env) env.best_project_repos

def envScore (c1 : Crew1Out) : ℚ := matchingScore c1.job_matching

def resumeOut (c1 : Crew1Out) : ResumeAnalysisOut :=
  ⟨envScore c1, c1.pdf_parsing, c1.resume_analysis, c1.job_matching, c1.github_extraction⟩

def untriggeredPayload (env : Env) (c1 : Crew1Out) : ResultPayload :=
  let vi := envReconcile env
  { matching_score := envScore c1
    github_verification_triggered := false
    results := ⟨resumeOut c1, .skipped (skipReason (env.floatRepr (envScore c1)))⟩
    analysis_summary :=
      ⟨envScore c1, env.github_profile_url, env.best_project_repos.length,
        vi.1.length, vi.2.length, 0, false⟩ }

def dummyCrew2 : Crew2Out :=
  ⟨"No repositories or profile data to analyze".data,
    "No repositories or profile data to analyze".data,
    "No repositories or profile data to analyze".data,
    "No repositories or profile data to analyze".data⟩

def triggeredPayload (env : Env) (c1 : Crew1Out) (c2 : Crew2Out) : ResultPayload :=
  let vi := envReconcile env
  let prof := get_profile_activity_data (envUsername env) env.profileExtract
  let contents :=
    if vi.1.isEmpty then []
    else vi.1.map (fun r => extract_repository_content r (env.repoIngest r))
  let verifiedCount := if vi.1.isEmpty then 0 else vi.1.length
  let repoCount := if vi.1.isEmpty then 0 else vi.1.length
  { matching_score := envScore c1
    github_verification_triggered := true
    results :=
      ⟨resumeOut c1,
        .triggered ⟨env.best_project_repos.length, verifiedCount, vi.2.length, repoCount,
          contents, prof, c2.project_matching, c2.authenticity_analysis,
          c2.credibility_scoring, c2.verification_report⟩⟩
    analysis_summary :=
      ⟨envScore c1, env.github_profile_url, env.best_project_repos.length,
        vi.1.length, vi.2.length, vi.1.length, true⟩ }

def workflow (env : Env) : WorkflowRun :=
  if env.pdfText.isEmpty then
    { updates := [updInit, updExtract, failedUpd pdfFailMsg]
      outcome := .err pdfFailMsg
      crew2Ran := false }
  else
    match env.crew1 with
    | .exn m =>
      { updates := [updInit, updExtract, updVerifyOwn, updCrew1, failedUpd m]
        outcome := .err m
        crew2Ran := false }
    | .ok c1 =>
      if 65 < envScore c1 then
        let vi := envReconcile env
        let pre := [updInit, updExtract, updVerifyOwn, updCrew1, updGhVerif] ++
          (if vi.1.isEmpty then [] else [updGitingest]) ++ [updCrew2]
        if decide (0 < (if vi.1.isEmpty then 0 else vi.1.length)) ||
            (get_profile_activity_data (envUsername env) env.profileExtract).truthy then
          match env.crew2 with
          | .exn m =>
            { updates := pre ++ [failedUpd m], outcome := .err m, crew2Ran := false }
          | .ok c2 =>
            { updates := pre ++ [updFinalize, completedUpd (triggeredPayload env c1 c2)]
              outcome := .ok (triggeredPayload env c1 c2)
              crew2Ran := true }
        else
          { updates := pre ++ [updFinalize, completedUpd (triggeredPayload env c1 dummyCrew2)]
            outcome := .ok (triggeredPayload env c1 dummyCrew2)
            crew2Ran := false }
      else
        { updates := [updInit, updExtract, updVerifyOwn, updCrew1, updFinalize,
            completedUpd (untriggeredPayload env c1)]
          outcome := .ok (untriggeredPayload env c1)
          crew2Ran := false }

/-- The extra `update_job_status` performed by `background_analysis`'s
`except` clause: same message, but `error=str(e)` without the prefix. -/
def bgFailedUpd (m : List Char) : JobUpdate :=
  ⟨.failed, 0, ("Analysis failed: ".data) ++ m, none, some m⟩

/-- All `update_job_status` calls an async run makes, in order. -/
def asyncUpdates (env : Env) : List JobUpdate :=
  match (workflow env).outcome with
  | .ok _ => (workflow env).updates
  | .err m => (workflow env).updates ++ [bgFailedUpd m]

structure JobEntry where
  status : JobStatus
  progress : ℚ
  message : List Char
  results : Option ResultPayload
  error : Option (List Char)

def initialJobEntry : JobEntry :=
  ⟨.pending, 0, "Job queued for processing".data, none, none⟩

/-- `update_job_status`: overwrites the five mutable fields of the entry. -/
def applyUpdate (_e : JobEntry) (u : JobUpdate) : JobEntry :=
  ⟨u.status, u.progress, u.message, u.results, u.error⟩

/-- The in-memory `job_storage` map, newest binding first. -/
def Storage : Type := List (List Char × JobEntry)

inductive HttpReply (α : Type) where
  | ok (val : α)
  | httpError (status : Nat) (detail : List Char)

/-- `GET /analysis-status/{job_id}`: 404 when the id is absent,
otherwise a snapshot of the entry; the handler body contains no write
to `job_storage`, so the storage component is returned unchanged. -/
def get_analysis_status (st : Storage) (job_id : List Char) : HttpReply JobEntry × Storage :=
  match List.lookup job_id st with
  | none => (.httpError 404 ("Job not found".data), st)
  | some e => (.ok e, st)

/-- The `best_project_repos` form field after `json.loads`:
a decode failure, a non-list JSON value, or a list of strings. -/
inductive ReposField where
  | badJson
  | notList
  | jsonList (items : List (List Char))

structure SyncResponse where
  job_id : List Char
  payload : ResultPayload

def lowerEndsWithPdf (filename : List Char) : Bool :=
  (".pdf".data).isSuffixOf (filename.map Char.toLower)

/-- `POST /analyze-resume` (synchronous).  The `ValueError` raised for a
list of the wrong length is not caught by the inner
`except json.JSONDecodeError`, so it reaches the final
`except Exception` and becomes HTTP 500, unlike the decode error, which
becomes HTTP 400.  The handler body never writes `job_storage`. -/
def analyze_resume (st : Storage) (job_id filename : List Char) (repos : ReposField)
    (env : Env) : HttpReply SyncResponse × Storage :=
  if lowerEndsWithPdf filename = false then
    (.httpError 400 ("Only PDF files are allowed".data), st)
  else
    match repos with
    | .badJson => (.httpError 400 ("Invalid JSON format for repository URLs".data), st)
    | .notList =>
      (.httpError 500 ("Analysis failed: Must provide 1-5 repository URLs".data), st)
    | .jsonList items =>
      if items.length < 1 ∨ 5 < items.length then
        (.httpError 500 ("Analysis failed: Must provide 1-5 repository URLs".data), st)
      else
        match (workflow { env with best_project_repos := items }).outcome with
        | .ok payload => (.ok ⟨job_id, payload⟩, st)
        | .err m => (.httpError 500 (("Analysis failed: ".data) ++ m), st)

/-- `POST /analyze-resume-async`: on valid input, inserts the pending
entry under the fresh job id and schedules the background task. -/
def analyze_resume_async (st : Storage) (job_id filename : List Char) (repos : ReposField) :
    HttpReply (List Char) × Storage :=
  if lowerEndsWithPdf filename = false then
    (.httpError 400 ("Only PDF files are allowed".data), st)
  else
    match repos with
    | .badJson => (.httpError 400 ("Invalid JSON format for repository URLs".data), st)
    | .notList =>
      (.httpError 500 ("Failed to start analysis: Must provide 1-5 repository URLs".data), st)
    | .jsonList items =>
      if items.length < 1 ∨ 5 < items.length then
        (.httpError 500 ("Failed to start analysis: Must provide 1-5 repository URLs".data), st)
      else
        (.ok job_id, (job_id, initialJobEntry) :: st)

/-- Status transitions permitted by the job state machine of the spec,
with completed and failed terminal (only failed→failed self-loops occur,
from the double failed write). -/
def statusTransitionOk : JobStatus → JobStatus → Bool
  | .pending, .processing => true
  | .processing, .processing => true
  | .processing, .completed => true
  | .processing, .failed => true
  | .failed, .failed => true
  | _, _ => false

def chainOkFrom (prev : JobStatus) : List JobStatus → Bool
  | [] => true
  | s :: rest => statusTransitionOk prev s && chainOkFrom s rest

/-- `true` when no element other than the final one has status
completed: nothing is ever written after a completed write. -/
def completedOnlyLast : List JobUpdate → Bool
  | [] => true
  | [_] => true
  | u :: rest => (decide ¬(u.status = .completed)) && completedOnlyLast rest

/-- `true` when no element other than the final one has a terminal
status (completed or failed): no write happens to an entry already in a
terminal state. -/
def noWriteAfterTerminal : List JobUpdate → Bool
  | [] => true
  | [_] => true
  | u :: rest =>
    (decide (¬(u.status = .completed) ∧ ¬(u.status = .failed))) && noWriteAfterTerminal rest

/-! ## Concrete environments used by witnesses and counterexamples -/

/-- An environment whose PDF extraction produced no text, so the run
fails at the second checkpoint. -/
def envBase : Env :=
  { github_profile_url := "https://github.com/alice".data
    best_project_repos := []
    pdfText := []
    crew1 := .exn ("provider error".data)
    profileExtract := none
    repoIngest := fun _ => .timeout
    crew2 := .exn ("provider error".data)
    floatRepr := fun _ => "0".data }

def crew1Fifty : Crew1Out :=
  ⟨"parsed resume".data, "resume analysis".data, "Match score: 50%".data, "github urls".data⟩

/-- An environment that completes with matching score 50, below the
threshold. -/
def envFifty : Env :=
  { github_profile_url := "https://github.com/alice".data
    best_project_repos := ["https://github.com/alice/repoA".data]
    pdfText := "resume text".data
    crew1 := .ok crew1Fifty
    profileExtract := none
    repoIngest := fun _ => .timeout
    crew2 := .ok ⟨"pm".data, "aa".data, "cs".data, "vr".data⟩
    floatRepr := fun _ => "50.0".data }

/-! ## Claim theorems -/

/-- C1 (counterexample).  The claim characterises the verified list via
stripping the `'https://github.com/'` prefix, but the code removes every
occurrence of that substring (`str.replace`).  For username `"ab"` and
URL `"ahttps://github.com/b/c"` (where the marker occurs mid-string, not
as a prefix), the code joins the surrounding characters into owner
`"ab"` and verifies the URL, while the claim's prefix-stripping parse
leaves owner `"ahttps:"` and demands the URL be invalid. -/
theorem c1_counterexample :
    reconcile ("ab".data) [("ahttps://github.com/b/c".data)] =
      ([("ahttps://github.com/b/c".data)], []) ∧
    claimVerified ("ab".data) ("ahttps://github.com/b/c".data) = false := by
  constructor
  · decide
  · decide

/-- C1 (amended).  Ownership reconciliation partitions the URL list in
input order: a URL is verified iff removing every occurrence of
`'https://github.com/'` and splitting on `'/'` yields at least two
segments whose first equals the profile username (case-sensitive); all
other URLs land in the invalid list and never in the verified list. -/
theorem c1_reconcile_partition (u : List Char) (urls : List (List Char)) :
    reconcile u urls =
      (urls.filter (fun x => verifiedByCode u x),
        urls.filter (fun x => !(verifiedByCode u x))) ∧
    ∀ url, verifiedByCode u url = true ↔
      ∃ owner nm rest, repoParts url = owner :: nm :: rest ∧ owner = u := by
  constructor
  · induction urls with
    | nil => rfl
    | cons url rest ih =>
      rcases h : repoParts url with _ | ⟨owner, _ | ⟨nm, segs⟩⟩
      · simp [reconcile, verifiedByCode, h, List.filter, ih]
      · simp [reconcile, verifiedByCode, h, List.filter, ih]
      · by_cases ho : owner = u
        · simp [reconcile, verifiedByCode, h, ho, List.filter, ih]
        · simp [reconcile, verifiedByCode, h, ho, List.filter, ih]
  · intro url
    rcases h : repoParts url with _ | ⟨owner, _ | ⟨nm, segs⟩⟩
    · simp [verifiedByCode, h]
    · simp [verifiedByCode, h]
    · constructor
      · intro hv
        refine ⟨owner, nm, segs, rfl, ?_⟩
        simpa [verifiedByCode, h] using hv
      · rintro ⟨o2, n2, r2, he, rfl⟩
        injection he with h1 h2
        subst h1
        simp [verifiedByCode, h]

/-- C3.  Whenever the gitingest call times out (120 s budget) or raises,
`extract_repository_content` still returns a result — the function is
total — with status `"failed"`, a populated error, null content, summary
and file tree, and `content_size` 0. -/
theorem c3_extraction_failure (url : List Char) (o : IngestOutcome)
    (h : o = .timeout ∨ ∃ m, o = .exn m) :
    (extract_repository_content url o).extraction_status = "failed".data ∧
    (extract_repository_content url o).error ≠ none ∧
    (extract_repository_content url o).content = none ∧
    (extract_repository_content url o).summary = none ∧
    (extract_repository_content url o).file_tree = none ∧
    (extract_repository_content url o).content_size = 0 := by
  rcases h with rfl | ⟨m, rfl⟩ <;> simp [extract_repository_content]

/-- C3 witness: the timeout outcome at a concrete URL. -/
theorem c3_witness :
    ((IngestOutcome.timeout = .timeout ∨ ∃ m, IngestOutcome.timeout = .exn m) ∧
      (extract_repository_content ("https://github.com/alice/repoA".data)
          .timeout).extraction_status = "failed".data ∧
      (extract_repository_content ("https://github.com/alice/repoA".data)
          .timeout).error ≠ none ∧
      (extract_repository_content ("https://github.com/alice/repoA".data)
          .timeout).content = none ∧
      (extract_repository_content ("https://github.com/alice/repoA".data)
          .timeout).summary = none ∧
      (extract_repository_content ("https://github.com/alice/repoA".data)
          .timeout).file_tree = none ∧
      (extract_repository_content ("https://github.com/alice/repoA".data)
          .timeout).content_size = 0) :=
  ⟨Or.inl rfl,
    c3_extraction_failure ("https://github.com/alice/repoA".data) .timeout (Or.inl rfl)⟩

/-- C6.  When the raw gitingest content exceeds the 3000-character cap,
the stored content is the first 3000 characters followed by the
truncation marker, its length is `3000 + length of the marker`, and the
marker names the original raw size in decimal. -/
theorem c6_truncation (url summary tree content : List Char)
    (h : max_content_size < content.length) :
    (extract_repository_content url (.ok summary tree content)).content =
      some (content.take max_content_size ++ truncMark content.length) ∧
    (extract_repository_content url (.ok summary tree content)).content_size =
      max_content_size + (truncMark content.length).length ∧
    (Nat.repr content.length).data <:+:
      (content.take max_content_size ++ truncMark content.length) ∧
    (extract_repository_content url (.ok summary tree content)).extraction_status =
      "success".data := by
  refine ⟨?_, ?_, ?_, ?_⟩
  · simp only [extract_repository_content, gt_iff_lt]
    rw [if_pos h]
  · simp only [extract_repository_content, gt_iff_lt]
    rw [if_pos h]
    simp [List.length_take, Nat.min_eq_left h.le]
  · refine ⟨content.take max_content_size ++ ("\n\n[Content truncated - original size: ".data),
      (" characters]".data), ?_⟩
    simp [truncMark]
  · simp [extract_repository_content]

/-- C6 witness: raw content of length 5000 (the spec's example). -/
theorem c6_witness :
    max_content_size < (List.replicate 5000 'a').length ∧
    (extract_repository_content [] (.ok [] [] (List.replicate 5000 'a'))).content_size =
      max_content_size + (truncMark (List.replicate 5000 'a').length).length :=
  ⟨by norm_num [max_content_size],
    (c6_truncation [] [] [] (List.replicate 5000 'a') (by norm_num [max_content_size])).2.1⟩

/-- C4.  The score parse is total (the Lean function is total by
construction); when no substring of the crew output matches
`\d+(\.\d+)?%` the score is 0, and when one does the score is the value
of the leftmost match — the match at the least starting position, every
earlier position failing to match. -/
theorem c4_matching_score (s : List Char) :
    (¬ HasPct s → matchingScore s = 0) ∧
    (HasPct s → ∃ n g, pctAt (s.drop n) = some g ∧
      (∀ m, m < n → pctAt (s.drop m) = none) ∧ matchingScore s = groupVal g) := by
  constructor
  · intro hno
    rcases hf : findPct s with _ | g
    · simp [matchingScore, hf]
    · exact absurd (HasPct_of_findPct_some hf) hno
  · intro hyes
    have hs := findPct_isSome_of_HasPct hyes
    rcases hf : findPct s with _ | g
    · rw [hf] at hs; simp at hs
    · obtain ⟨n, hn, hmin⟩ := findPct_some_least hf
      exact ⟨n, g, hn, hmin, by simp [matchingScore, hf]⟩

/-- C4 witness: `"Fit: 87.5% overall"` contains a percentage substring,
and the parse picks out the leftmost match. -/
theorem c4_witness :
    HasPct ("Fit: 87.5% overall".data) ∧
    ∃ n g, pctAt (("Fit: 87.5% overall".data).drop n) = some g ∧
      (∀ m, m < n → pctAt (("Fit: 87.5% overall".data).drop m) = none) ∧
      matchingScore ("Fit: 87.5% overall".data) = groupVal g := by
  have hp : HasPct ("Fit: 87.5% overall".data) :=
    ⟨"Fit: ".data, "87.5".data, " overall".data, by decide,
      Or.inr ⟨"87".data, "5".data, by decide, by decide, by decide, by decide, by decide⟩⟩
  exact ⟨hp, (c4_matching_score ("Fit: 87.5% overall".data)).2 hp⟩

/-- C9.  The polling loop makes at most 15 attempts (its result depends
only on the first 15 responses) with a 2-second sleep constant; the
first success-with-data response among an initial run of
retry responses (success-without-data, or a request timeout, which the
code `continue`s on) yields that data; an API-error or other-exception
response in that position yields `None`; and 15 retries exhaust the
budget yielding `None`. -/
theorem c9_poll_contract (resp : Nat → PollResponse) :
    pollInterval = 2 ∧
    ((∀ i, i < pollMaxAttempts → isRetryResp (resp i) = true) →
      poll_extraction_result resp = none) ∧
    (∀ i d, i < pollMaxAttempts → (∀ j, j < i → isRetryResp (resp j) = true) →
      resp i = .success (some d) → poll_extraction_result resp = some d) ∧
    (∀ i, i < pollMaxAttempts → (∀ j, j < i → isRetryResp (resp j) = true) →
      isAbortResp (resp i) = true → poll_extraction_result resp = none) ∧
    (∀ resp2, (∀ i, i < pollMaxAttempts → resp i = resp2 i) →
      poll_extraction_result resp = poll_extraction_result resp2) := by
  refine ⟨rfl, ?_, ?_, ?_, ?_⟩
  · intro h
    exact pollAux_exhaust resp pollMaxAttempts 0 (fun i hi => by simpa using h i hi)
  · intro i d hi hj hd
    exact (pollAux_first_hit resp pollMaxAttempts 0 i hi
      (fun j hji => by simpa using hj j hji)).1 d (by simpa using hd)
  · intro i hi hj habort
    exact (pollAux_first_hit resp pollMaxAttempts 0 i hi
      (fun j hji => by simpa using hj j hji)).2 (by simpa using habort)
  · intro resp2 h
    exact pollAux_depends_on_window resp resp2 pollMaxAttempts 0
      (fun i hi => by simpa using h i hi)

/-- A response sequence whose first answer already carries data. -/
def respImmediate : Nat → PollResponse := fun i =>
  if i = 0 then .success (some ("profile payload".data)) else .success none

/-- C9 witness: an immediate success-with-data response terminates the
loop with that data on the first attempt. -/
theorem c9_witness :
    (0 < pollMaxAttempts ∧ (∀ j, j < 0 → isRetryResp (respImmediate j) = true) ∧
      respImmediate 0 = .success (some ("profile payload".data))) ∧
    poll_extraction_result respImmediate = some ("profile payload".data) :=
  ⟨⟨by norm_num [pollMaxAttempts], fun j hj => absurd hj (Nat.not_lt_zero j), rfl⟩,
    (c9_poll_contract respImmediate).2.2.1 0 ("profile payload".data)
      (by norm_num [pollMaxAttempts]) (fun j hj => absurd hj (Nat.not_lt_zero j)) rfl⟩

/-- C2.  With a usable PDF text and a successful first crew, the GitHub
verification branch is entered iff the parsed score is strictly greater
than 65: the second crew can only run when the score exceeds 65, and at
or below 65 the run completes with `github_verification.triggered =
false` together with a reason string ending in the threshold-naming
suffix, without the verification crew executing. -/
theorem c2_threshold_gate (env : Env) (c1 : Crew1Out)
    (hpdf : env.pdfText.isEmpty = false) (hc1 : env.crew1 = .ok c1) :
    ((workflow env).crew2Ran = true → 65 < envScore c1) ∧
    (¬ 65 < envScore c1 →
      (workflow env).outcome = .ok (untriggeredPayload env c1) ∧
      (untriggeredPayload env c1).github_verification_triggered = false ∧
      (untriggeredPayload env c1).results.github_verification =
        .skipped (skipReason (env.floatRepr (envScore c1))) ∧
      ("% below threshold of 65%".data) <:+ skipReason (env.floatRepr (envScore c1)) ∧
      (workflow env).crew2Ran = false) ∧
    (65 < envScore c1 → ∀ p, (workflow env).outcome = .ok p →
      p.github_verification_triggered = true) := by
  refine ⟨?_, ?_, ?_⟩
  · intro hran
    by_contra hs
    simp [workflow, hpdf, hc1, hs] at hran
  · intro hs
    refine ⟨?_, rfl, rfl, ?_, ?_⟩
    · simp [workflow, hpdf, hc1, hs]
    · exact ⟨("Matching score ".data) ++ env.floatRepr (envScore c1), by simp [skipReason]⟩
    · simp [workflow, hpdf, hc1, hs]
  · intro hs p hp
    rcases hc2 : env.crew2 with c2 | m
    · simp [workflow, hpdf, hc1, hc2, hs, ProfileDict.truthy] at hp
      rw [← hp]
      rfl
    · simp [workflow, hpdf, hc1, hc2, hs, ProfileDict.truthy] at hp

/-- C2 witness: score 50 stays below the threshold, so the run finishes
untriggered with the threshold-naming reason and no second crew. -/
theorem c2_witness :
    (envFifty.pdfText.isEmpty = false ∧ envFifty.crew1 = .ok crew1Fifty ∧
      ¬ 65 < envScore crew1Fifty) ∧
    ((workflow envFifty).outcome = .ok (untriggeredPayload envFifty crew1Fifty) ∧
      (untriggeredPayload envFifty crew1Fifty).github_verification_triggered = false ∧
      (untriggeredPayload envFifty crew1Fifty).results.github_verification =
        .skipped (skipReason (envFifty.floatRepr (envScore crew1Fifty))) ∧
      ("% below threshold of 65%".data) <:+
        skipReason (envFifty.floatRepr (envScore crew1Fifty)) ∧
      (workflow envFifty).crew2Ran = false) := by
  have hscore : envScore crew1Fifty = 50 := by
    have hf : findPct (crew1Fifty.job_matching) = some ("50".data, []) := by decide
    have h50 : natOfDigits ("50".data) = 50 := by decide
    have h0 : natOfDigits ([] : List Char) = 0 := by decide
    simp [envScore, matchingScore, hf, groupVal, h50, h0]
  have hns : ¬ (65 : ℚ) < envScore crew1Fifty := by rw [hscore]; norm_num
  exact ⟨⟨rfl, rfl, hns⟩, (c2_threshold_gate envFifty crew1Fifty rfl rfl).2.1 hns⟩

/-- Exhaustive enumeration of the update traces an async run can
produce, paired with the run outcome: four failure shapes (each ending
in the workflow's failed write followed by the background wrapper's
second failed write) and three completion shapes (each ending in the
completed write). -/
theorem workflowCases (env : Env) :
    (∃ m, (workflow env).outcome = .err m ∧
      (asyncUpdates env = [updInit, updExtract, failedUpd m, bgFailedUpd m] ∨
       asyncUpdates env =
         [updInit, updExtract, updVerifyOwn, updCrew1, failedUpd m, bgFailedUpd m] ∨
       asyncUpdates env =
         [updInit, updExtract, updVerifyOwn, updCrew1, updGhVerif, updCrew2,
           failedUpd m, bgFailedUpd m] ∨
       asyncUpdates env =
         [updInit, updExtract, updVerifyOwn, updCrew1, updGhVerif, updGitingest, updCrew2,
           failedUpd m, bgFailedUpd m])) ∨
    (∃ p, (workflow env).outcome = .ok p ∧
      (asyncUpdates env =
         [updInit, updExtract, updVerifyOwn, updCrew1, updFinalize, completedUpd p] ∨
       asyncUpdates env =
         [updInit, updExtract, updVerifyOwn, updCrew1, updGhVerif, updCrew2, updFinalize,
           completedUpd p] ∨
       asyncUpdates env =
         [updInit, updExtract, updVerifyOwn, updCrew1, updGhVerif, updGitingest, updCrew2,
           updFinalize, completedUpd p])) := by
  by_cases hpdf : env.pdfText.isEmpty
  · refine Or.inl ⟨pdfFailMsg, by simp [workflow, hpdf], Or.inl ?_⟩
    simp [asyncUpdates, workflow, hpdf]
  · rcases hc1 : env.crew1 with c1 | m
    · by_cases hs : 65 < envScore c1
      · by_cases hv : (envReconcile env).1 = []
        · rcases hc2 : env.crew2 with c2 | m
          · refine Or.inr ⟨triggeredPayload env c1 c2, ?_, Or.inr (Or.inl ?_)⟩
            · simp [workflow, hpdf, hc1, hs, hv, hc2, ProfileDict.truthy]
            · simp [asyncUpdates, workflow, hpdf, hc1, hs, hv, hc2, ProfileDict.truthy]
          · refine Or.inl ⟨m, ?_, Or.inr (Or.inr (Or.inl ?_))⟩
            · simp [workflow, hpdf, hc1, hs, hv, hc2, ProfileDict.truthy]
            · simp [asyncUpdates, workflow, hpdf, hc1, hs, hv, hc2, ProfileDict.truthy]
        · rcases hc2 : env.crew2 with c2 | m
          · refine Or.inr ⟨triggeredPayload env c1 c2, ?_, Or.inr (Or.inr ?_)⟩
            · simp [workflow, hpdf, hc1, hs, hv, hc2, ProfileDict.truthy]
            · simp [asyncUpdates, workflow, hpdf, hc1, hs, hv, hc2, ProfileDict.truthy]
          · refine Or.inl ⟨m, ?_, Or.inr (Or.inr (Or.inr ?_))⟩
            · simp [workflow, hpdf, hc1, hs, hv, hc2, ProfileDict.truthy]
            · simp [asyncUpdates, workflow, hpdf, hc1, hs, hv, hc2, ProfileDict.truthy]
      · refine Or.inr ⟨untriggeredPayload env c1, ?_, Or.inl ?_⟩
        · simp [workflow, hpdf, hc1, hs]
        · simp [asyncUpdates, workflow, hpdf, hc1, hs]
    · refine Or.inl ⟨m, ?_, Or.inr (Or.inl ?_)⟩
      · simp [workflow, hpdf, hc1]
      · simp [asyncUpdates, workflow, hpdf, hc1]

/-- C7 (counterexample).  A run whose PDF extraction yields no text
makes updates with progress 0.1, 0.2 and then the failure writes with
progress 0.0: the progress sequence of these `update_job_status` calls
is not monotone, refuting the claim's never-decreases clause. -/
theorem c7_counterexample :
    ¬ List.Chain' (· ≤ ·) ((asyncUpdates envBase).map JobUpdate.progress) := by
  intro hch
  have e : (asyncUpdates envBase).map JobUpdate.progress = [1/10, 2/10, 0, 0] := rfl
  rw [e] at hch
  norm_num [List.chain'_cons] at hch

/-- C7 (amended).  Job status moves only along
pending → processing → {completed, failed} with completed and failed
terminal (failed admits one failed→failed rewrite by the background
wrapper), and progress never decreases in runs that complete; a
transition to failed resets progress to 0.0, which is the only
progress decrease. -/
theorem c7_amended (env : Env) :
    chainOkFrom .pending ((asyncUpdates env).map JobUpdate.status) = true ∧
    (∀ p, (workflow env).outcome = .ok p →
      List.Chain' (· ≤ ·) ((0 : ℚ) :: (asyncUpdates env).map JobUpdate.progress)) ∧
    (∀ u ∈ asyncUpdates env, u.status = .failed → u.progress = 0) := by
  obtain ⟨m, ho, htr⟩ | ⟨p, ho, htr⟩ := workflowCases env
  · refine ⟨?_, ?_, ?_⟩
    · rcases htr with h | h | h | h <;> rw [h] <;> rfl
    · intro q hq
      rw [ho] at hq
      cases hq
    · intro u hu hf
      rcases htr with h | h | h | h <;> rw [h] at hu <;> fin_cases hu <;>
        simp_all [updInit, updExtract, updVerifyOwn, updCrew1, updGhVerif, updGitingest,
          updCrew2, updFinalize, processingUpd, failedUpd, bgFailedUpd]
  · refine ⟨?_, ?_, ?_⟩
    · rcases htr with h | h | h <;> rw [h] <;> rfl
    · intro q hq
      rcases htr with h | h | h <;> rw [h] <;>
        norm_num [updInit, updExtract, updVerifyOwn, updCrew1, updGhVerif, updGitingest,
          updCrew2, updFinalize, processingUpd, completedUpd, List.chain'_cons]
    · intro u hu hf
      rcases htr with h | h | h <;> rw [h] at hu <;> fin_cases hu <;>
        simp_all [updInit, updExtract, updVerifyOwn, updCrew1, updGhVerif, updGitingest,
          updCrew2, updFinalize, processingUpd, completedUpd]

/-- C7 witness: a completing run (score 50) whose progress sequence is
monotone. -/
theorem c7_witness :
    (workflow envFifty).outcome = .ok (untriggeredPayload envFifty crew1Fifty) ∧
    List.Chain' (· ≤ ·) ((0 : ℚ) :: (asyncUpdates envFifty).map JobUpdate.progress) := by
  have hscore : envScore crew1Fifty = 50 := by
    have hf : findPct (crew1Fifty.job_matching) = some ("50".data, []) := by decide
    have h50 : natOfDigits ("50".data) = 50 := by decide
    have h0 : natOfDigits ([] : List Char) = 0 := by decide
    simp [envScore, matchingScore, hf, groupVal, h50, h0]
  have hns : ¬ (65 : ℚ) < envScore crew1Fifty := by rw [hscore]; norm_num
  have hpdf : envFifty.pdfText.isEmpty = false := by decide
  have ho : (workflow envFifty).outcome = .ok (untriggeredPayload envFifty crew1Fifty) := by
    simp [workflow, hpdf, hns, show envFifty.crew1 = .ok crew1Fifty from rfl]
  exact ⟨ho, (c7_amended envFifty).2.1 (untriggeredPayload envFifty crew1Fifty) ho⟩

/-- C8 (counterexample).  The claim's clause that no pipeline code
writes to a job entry after it reaches a terminal state fails: in a run
that fails (here: empty PDF text), `run_analysis_workflow`'s except
block writes status failed and then `background_analysis`'s except block
writes the entry again (same status, different error field). -/
theorem c8_counterexample :
    noWriteAfterTerminal (asyncUpdates envBase) = false := rfl

/-- C8 (amended).  No write ever follows a completed write (completed is
the final update of any trace containing it); the status handler
mutates nothing, so back-to-back `GET /analysis-status/{job_id}` reads
of a stored entry — in particular of a completed job — return identical
replies.  Only the failed state admits one further (failed) write, from
the background wrapper. -/
theorem c8_amended (env : Env) (st : Storage) (jid : List Char) :
    completedOnlyLast (asyncUpdates env) = true ∧
    (get_analysis_status st jid).2 = st ∧
    (get_analysis_status ((get_analysis_status st jid).2) jid).1 =
      (get_analysis_status st jid).1 := by
  refine ⟨?_, ?_, ?_⟩
  · obtain ⟨m, ho, htr⟩ | ⟨p, ho, htr⟩ := workflowCases env
    · rcases htr with h | h | h | h <;> rw [h] <;> rfl
    · rcases htr with h | h | h <;> rw [h] <;> rfl
  · rcases h : List.lookup jid st with _ | e <;> simp [get_analysis_status, h]
  · rcases h : List.lookup jid st with _ | e <;> simp [get_analysis_status, h]

/-- C5.  Submitting a valid JSON array of six repository URLs to the
synchronous endpoint: the `ValueError("Must provide 1-5 repository
URLs")` escapes the inner `except json.JSONDecodeError` and reaches the
final `except Exception`, producing HTTP 500 — not the HTTP 400 the
claim (and the spec's validation-error policy) prescribes. -/
theorem c5_six_repos_gives_500 :
    (analyze_resume [] ("job-1".data) ("resume.pdf".data)
      (.jsonList [("r1".data), ("r2".data), ("r3".data), ("r4".data), ("r5".data),
        ("r6".data)])
      envBase).1 =
    .httpError 500 ("Analysis failed: Must provide 1-5 repository URLs".data) := rfl

/-- C10.  The synchronous endpoint never writes the job map: the storage
it returns is its input storage, while its success reply still carries
the generated job id; consequently a status lookup for a job id that is
not in the map — as a fresh uuid is — answers 404. -/
theorem c10_sync_never_stores (st : Storage) (jid fname : List Char)
    (rf : ReposField) (env : Env) :
    (analyze_resume st jid fname rf env).2 = st ∧
    (∀ r, (analyze_resume st jid fname rf env).1 = .ok r → r.job_id = jid) ∧
    (List.lookup jid st = none →
      (get_analysis_status st jid).1 = .httpError 404 ("Job not found".data)) := by
  refine ⟨?_, ?_, ?_⟩
  · by_cases hf : lowerEndsWithPdf fname = false
    · simp [analyze_resume, hf]
    · rcases rf with _ | _ | items
      · simp [analyze_resume, hf]
      · simp [analyze_resume, hf]
      · by_cases hl : items = [] ∨ 5 < items.length
        · simp [analyze_resume, hf, hl]
        · rcases ho : (workflow { env with best_project_repos := items }).outcome with p | m
          · simp [analyze_resume, hf, hl, ho]
          · simp [analyze_resume, hf, hl, ho]
  · intro r hr
    by_cases hf : lowerEndsWithPdf fname = false
    · simp [analyze_resume, hf] at hr
    · rcases rf with _ | _ | items
      · simp [analyze_resume, hf] at hr
      · simp [analyze_resume, hf] at hr
      · by_cases hl : items = [] ∨ 5 < items.length
        · simp [analyze_resume, hf, hl] at hr
        · rcases ho : (workflow { env with best_project_repos := items }).outcome with p | m
          · simp [analyze_resume, hf, hl, ho] at hr
            subst hr
            rfl
          · simp [analyze_resume, hf, hl, ho] at hr
  · intro h
    simp [get_analysis_status, h]

/-- C10 witness: an empty job map, a fresh job id, a valid request. -/
theorem c10_witness :
    List.lookup ("job-xyz".data) ([] : Storage) = none ∧
    (get_analysis_status ([] : Storage) ("job-xyz".data)).1 =
      .httpError 404 ("Job not found".data) :=
  ⟨rfl,
    (c10_sync_never_stores ([] : Storage) ("job-xyz".data) ("cv.pdf".data)
      (.jsonList [("https://github.com/alice/repoA".data)]) envBase).2.2 rfl⟩

end Findr
